import Mathlib

/-!
Shallow embedding of the `reporting_vtbox` loss-report pipeline
(`src/1.0.7.py` and `src/report_gerantion_for_lossvalidation.py`).

The pipeline: locate a header line inside a metadata preamble
(`read_csv_with_header_detection`, `read_excel_with_header_detection`),
coerce the "Percentage Loss" column to numbers dropping unparseable rows,
group by "Measurement" computing per-group min/max (optionally the midpoint
average), and optionally an overall mean of the group mins and maxes
(`process_data`).

Python strings are modelled as Lean `String` (with the character-level
operations written structurally on `String.data` so that they compute),
floats as `ℚ`, data frames as a `Table` of a column-name list plus rows of
cells, and the error dialogs (`messagebox.showerror` + `return None`) as
`Except Failure`.
-/

namespace Vtbox

/-- The error-dialog outcomes of the reading functions, as typed failures.
`MissingColumns` carries the column-name list that the dialog text joins
(the code joins `required_columns`, the full caller-supplied list). -/
inductive Failure where
  | HeaderNotFound
  | MissingColumns (names : List String)
  | InvalidSheetChoice
  deriving DecidableEq, Repr

/-- Python `str.strip()`: drop leading and trailing whitespace. -/
def pyStrip (s : String) : String :=
  ⟨((s.data.dropWhile Char.isWhitespace).reverse.dropWhile
      Char.isWhitespace).reverse⟩

/-- Python `str.startswith(p)`. -/
def pyStartsWith (s p : String) : Bool :=
  p.data.isPrefixOf s.data

/-- The literal header signature searched for in
`read_csv_with_header_detection` (src/1.0.7.py line 239) and in
`process_data` of report_gerantion_for_lossvalidation.py line 94. -/
def header_signature : String := "Time,Metric,Value,Measurement"

/-- One CSV line is a header line when its content, stripped of leading and
trailing whitespace, starts with the signature: Python
`line.strip().startswith("Time,Metric,Value,Measurement")`. -/
def isHeaderLine (line : String) : Bool :=
  pyStartsWith (pyStrip line) header_signature

/-- Index of the first header line, scanning sequentially from the start
(the `for idx, line in enumerate(f)` loop with `break`). -/
def findHeaderRow (lines : List String) : Option Nat :=
  lines.findIdx? isHeaderLine

/-- Split a character list at commas. -/
def splitCommaChars : List Char → List (List Char)
  | [] => [[]]
  | c :: cs =>
    if c = ',' then [] :: splitCommaChars cs
    else
      match splitCommaChars cs with
      | [] => [[c]]
      | g :: gs => (c :: g) :: gs

/-- Splitting one delimited line into cells (`pd.read_csv` on
comma-separated text). -/
def splitComma (line : String) : List String :=
  (splitCommaChars line.data).map (fun cs => ⟨cs⟩)

/-- A parsed data frame: the detected header names plus the data rows. -/
structure Table where
  columns : List String
  rows : List (List String)
  deriving DecidableEq, Repr

/-- The caller-supplied required columns (src/1.0.7.py line 255). -/
def required_columns : List String := ["Measurement", "Percentage Loss"]

/-- `read_csv_with_header_detection` (src/1.0.7.py lines 234-270): scan for
the first header line; everything before it is skipped
(`skiprows=range(0, header_row)`), the header line provides the column
names (`header=0`) and the following lines are the data rows.  No header
line at all is the "Header row not found" dialog; a required column absent
from the detected header is the "must contain the following columns" dialog,
whose text joins the full `required_columns` list. -/
def read_csv_with_header_detection (lines : List String) :
    Except Failure Table :=
  match findHeaderRow lines with
  | none => .error .HeaderNotFound
  | some k =>
    match lines.drop k with
    | [] => .error .HeaderNotFound
    | h :: rest =>
      let cols := splitComma h
      if required_columns.all (fun c => cols.contains c) then
        .ok ⟨cols, rest.map splitComma⟩
      else
        .error (.MissingColumns required_columns)

instance {ε α : Type} [DecidableEq ε] [DecidableEq α] :
    DecidableEq (Except ε α) := fun a b =>
  match a, b with
  | .ok x, .ok y => decidable_of_iff (x = y) (by simp)
  | .error e, .error f => decidable_of_iff (e = f) (by simp)
  | .ok _, .error _ => isFalse (by simp)
  | .error _, .ok _ => isFalse (by simp)

/-! ## Numeric coercion (`pd.to_numeric(..., errors='coerce')`) -/

/-- Split a character list at a separator character. -/
def splitChar (sep : Char) : List Char → List (List Char)
  | [] => [[]]
  | c :: cs =>
    if c = sep then [] :: splitChar sep cs
    else
      match splitChar sep cs with
      | [] => [[c]]
      | g :: gs => (c :: g) :: gs

/-- Decimal value of a digit string. -/
def natOfDigits (ds : List Char) : Nat :=
  ds.foldl (fun n c => n * 10 + (c.toNat - 48)) 0

/-- Model of float coercion of one cell: an optional sign, then decimal
digits with an optional fractional part; anything else (and a missing or
empty cell) coerces to NaN, i.e. `none`.  Leading/trailing whitespace is
tolerated, as `pd.to_numeric` tolerates it on strings. -/
def parseFloat? (s : String) : Option ℚ :=
  let cs := (pyStrip s).data
  let signed : ℚ × List Char :=
    match cs with
    | '-' :: rest => (-1, rest)
    | '+' :: rest => (1, rest)
    | _ => (1, cs)
  match splitChar '.' signed.2 with
  | [ip] =>
    if !ip.isEmpty && ip.all Char.isDigit then
      some (signed.1 * natOfDigits ip)
    else none
  | [ip, fp] =>
    if (ip.all Char.isDigit && fp.all Char.isDigit) &&
        !(ip.isEmpty && fp.isEmpty) then
      some (signed.1 * ((natOfDigits ip : ℚ) +
        (natOfDigits fp : ℚ) / (10 ^ fp.length)))
    else none
  | _ => none

/-! ## Cleaning (src/1.0.7.py lines 188-196) -/

/-- Position of a column name in the header. -/
def colIndex (cols : List String) (c : String) : Option Nat :=
  cols.findIdx? (· == c)

/-- The cell of a row under a named column; a row too short for the column
has a missing (NaN) cell, as in pandas. -/
def getCell (cols : List String) (row : List String) (c : String) :
    Option String :=
  (colIndex cols c).bind fun i => row[i]?

/-- The coerced "Percentage Loss" value of a row
(`pd.to_numeric(df['Percentage Loss'], errors='coerce')`). -/
def rowValue (cols : List String) (row : List String) : Option ℚ :=
  (getCell cols row "Percentage Loss").bind parseFloat?

/-- The "Measurement" group key of a row; missing cell = NaN key. -/
def rowKey (cols : List String) (row : List String) : Option String :=
  getCell cols row "Measurement"

/-- `df.dropna(subset=['Percentage Loss'])`: the rows whose value column
coerced successfully. -/
def cleanedRows (t : Table) : List (List String) :=
  t.rows.filter (fun r => (rowValue t.columns r).isSome)

/-- `dropped_rows = initial_row_count - cleaned_row_count`. -/
def dropCount (t : Table) : Nat :=
  t.rows.length - (cleanedRows t).length

/-- The (key, value) pairs that enter `df.groupby("Measurement")`: rows
surviving the dropna, minus rows with a NaN group key, which pandas
`groupby` silently excludes. -/
def cleanPairs (t : Table) : List (String × ℚ) :=
  t.rows.filterMap (fun r =>
    match rowKey t.columns r, rowValue t.columns r with
    | some k, some v => some (k, v)
    | _, _ => none)

/-! ## Grouping (src/1.0.7.py lines 198-214) -/

/-- A kernel-computable decidability witness for the string order used to
sort group keys (pandas `groupby(sort=True)` sorts keys ascending by the
Python string comparison, lexicographic on code points). -/
def strLeDec : DecidableRel (fun a b : String => a ≤ b) := fun a b =>
  decidable_of_iff (a.data ≤ b.data) String.le_iff_toList_le.symm

/-- The distinct group keys in ascending string order, as produced by
`df.groupby("Measurement")` with its default `sort=True`. -/
def groupKeys (rows : List (String × ℚ)) : List String :=
  @List.insertionSort String (fun a b => a ≤ b) strLeDec
    (rows.map Prod.fst).dedup

/-- The values of one group. -/
def valuesFor (rows : List (String × ℚ)) (k : String) : List ℚ :=
  (rows.filter (fun r => r.1 == k)).map Prod.snd

/-- Minimum of a series (`agg 'min'`); 0 on the empty list, which never
feeds a group (a group has at least one row). -/
def listMin : List ℚ → ℚ
  | [] => 0
  | [x] => x
  | x :: y :: t => min x (listMin (y :: t))

/-- Maximum of a series (`agg 'max'`). -/
def listMax : List ℚ → ℚ
  | [] => 0
  | [x] => x
  | x :: y :: t => max x (listMax (y :: t))

/-- Mean of a series (`Series.mean()`). -/
def mean (l : List ℚ) : ℚ := l.sum / l.length

/-- The two report toggles (`include_average`,
`include_overall_average`). -/
structure Options where
  include_average : Bool
  include_overall_average : Bool
  deriving DecidableEq, Repr

/-- One row of the grouped output: Measurement, Min Loss, Max Loss and the
optional Average column. -/
structure GroupRow where
  measurement : String
  minLoss : ℚ
  maxLoss : ℚ
  average : Option ℚ
  deriving DecidableEq, Repr

/-- The GroupRow of one key: min and max of the group's values, plus
`Average = (Min Loss + Max Loss) / 2` when the toggle is on
(src/1.0.7.py line 204). -/
def mkGroup (opts : Options) (rows : List (String × ℚ)) (k : String) :
    GroupRow :=
  let vs := valuesFor rows k
  { measurement := k
    minLoss := listMin vs
    maxLoss := listMax vs
    average :=
      if opts.include_average then some ((listMin vs + listMax vs) / 2)
      else none }

/-- The grouped table (src/1.0.7.py lines 199-204). -/
def groupTable (opts : Options) (rows : List (String × ℚ)) :
    List GroupRow :=
  (groupKeys rows).map (mkGroup opts rows)

/-- The whole result of one `process_data` run: the grouped table, the
optional overall averages (`grouped['Min Loss'].mean()`,
`grouped['Max Loss'].mean()`, src/1.0.7.py lines 207-211), and the dropped
row count surfaced as a warning. -/
structure ProcessResult where
  groups : List GroupRow
  overall : Option (ℚ × ℚ)
  droppedRows : Nat
  deriving DecidableEq, Repr

/-- The aggregation stage of `process_data` (src/1.0.7.py lines 188-216),
applied to an already-read `Table`. -/
def aggregate (opts : Options) (t : Table) : ProcessResult :=
  let grouped := groupTable opts (cleanPairs t)
  { groups := grouped
    overall :=
      if opts.include_overall_average then
        some (mean (grouped.map GroupRow.minLoss),
              mean (grouped.map GroupRow.maxLoss))
      else none
    droppedRows := dropCount t }

/-- `process_data` on a CSV source (src/1.0.7.py lines 166-232 for the
`.csv` branch): read with header detection, then clean and aggregate.  Any
reading failure is surfaced; cleaning and aggregation never fail. -/
def process_data (opts : Options) (lines : List String) :
    Except Failure ProcessResult :=
  (read_csv_with_header_detection lines).map (aggregate opts)

/-! ## Excel reading (src/1.0.7.py lines 272-323) -/

/-- One spreadsheet cell as seen by the `isinstance(row[0], str)` test: a
string cell, or anything else (number, blank/NaN, ...). -/
inductive ExcelCell where
  | str (val : String)
  | other
  deriving DecidableEq, Repr

/-- One sheet of a workbook: its name and its raw rows
(`pd.read_excel(..., header=None)`). -/
structure Sheet where
  name : String
  rows : List (List ExcelCell)
  deriving DecidableEq, Repr

/-- `isinstance(row[0], str) and row[0].startswith("Time")`
(src/1.0.7.py line 284). -/
def cellStartsTime : ExcelCell → Bool
  | .str v => pyStartsWith v "Time"
  | .other => false

/-- First row index of a sheet whose first cell is a string starting with
"Time" (the inner `for idx, row in temp_df.iterrows()` loop). -/
def findSheetHeader (sh : Sheet) : Option Nat :=
  sh.rows.findIdx? (fun r =>
    match r.head? with
    | some c => cellStartsTime c
    | none => false)

/-- A cell rendered as a column name / cell text for the parsed frame. -/
def cellToName : ExcelCell → String
  | .str v => v
  | .other => ""

/-- `pd.read_excel(..., sheet_name=sheet, skiprows=range(0, idx),
header=0)`: the row at `idx` becomes the header, the rows below become
data. -/
def parseSheet (sh : Sheet) (idx : Nat) : Table :=
  match sh.rows.drop idx with
  | [] => ⟨[], []⟩
  | h :: rest => ⟨h.map cellToName, rest.map (fun r => r.map cellToName)⟩

/-- First sheet (in workbook order) containing a signature row, with the
row index found there (the outer `for sheet in sheet_names` loop with its
`break`). -/
def findFirstSignatureSheet : List Sheet → Option (Sheet × Nat)
  | [] => none
  | sh :: rest =>
    match findSheetHeader sh with
    | some idx => some (sh, idx)
    | none => findFirstSignatureSheet rest

/-- The required-columns validation shared by both readers
(src/1.0.7.py lines 254-258 and 307-311); the dialog text joins the full
`required_columns` list. -/
def checkColumns (t : Table) : Except Failure Table :=
  if required_columns.all (fun c => t.columns.contains c) then .ok t
  else .error (.MissingColumns required_columns)

/-- `read_excel_with_header_detection` (src/1.0.7.py lines 272-323).
`promptResult` is the injected `simpledialog.askstring` capability: `none`
models a cancelled dialog (Python `None`, never a member of
`sheet_names`).  Note the guard is literally the source's
`sheet_names.count(selected_sheet) > 1` — the number of occurrences of the
selected sheet's NAME in the name list — and, as in the source's line 305,
the re-read of a chosen sheet reuses the row index `idx` found in the
first matching sheet. -/
def read_excel_with_header_detection (wb : List Sheet)
    (promptResult : Option String) : Except Failure Table :=
  match findFirstSignatureSheet wb with
  | none => .error .HeaderNotFound
  | some (sh, idx) =>
    let sheetNames := wb.map Sheet.name
    if sheetNames.count sh.name > 1 then
      match promptResult with
      | some chosen =>
        if sheetNames.contains chosen then
          match wb.find? (fun s => s.name == chosen) with
          | some sh2 => checkColumns (parseSheet sh2 idx)
          | none => .error .InvalidSheetChoice
        else .error .InvalidSheetChoice
      | none => .error .InvalidSheetChoice
    else
      checkColumns (parseSheet sh idx)

set_option maxRecDepth 8192

/-! ## Header-locator lemmas -/

theorem findHeaderRow_eq_none {lines : List String}
    (h : ∀ l ∈ lines, isHeaderLine l = false) : findHeaderRow lines = none :=
  List.findIdx?_eq_none_iff.mpr h

theorem findHeaderRow_append {junk : List String} {h : String}
    {post : List String} (hj : ∀ l ∈ junk, isHeaderLine l = false)
    (hh : isHeaderLine h = true) :
    findHeaderRow (junk ++ h :: post) = some junk.length := by
  unfold findHeaderRow
  rw [List.findIdx?_append, List.findIdx?_eq_none_iff.mpr hj]
  simp [hh]

theorem read_csv_header_first {h : String} {post : List String}
    (hh : isHeaderLine h = true) :
    read_csv_with_header_detection (h :: post) =
      checkColumns ⟨splitComma h, post.map splitComma⟩ := by
  have hf : findHeaderRow (h :: post) = some 0 := by
    unfold findHeaderRow
    simp [hh]
  unfold read_csv_with_header_detection
  rw [hf]
  rfl

/-- C1: for every source in which some line passes the header test, the
first such line (scanning sequentially from the start) is the column
header, all lines before it are ignored regardless of their content, and
all lines after it become the data rows parsed under that header; with no
such line the result is the HeaderNotFound failure. -/
theorem c1_header_locator :
    (∀ lines : List String, (∀ l ∈ lines, isHeaderLine l = false) →
      read_csv_with_header_detection lines = .error .HeaderNotFound)
  ∧ (∀ (junk : List String) (h : String) (post : List String),
      (∀ l ∈ junk, isHeaderLine l = false) → isHeaderLine h = true →
      read_csv_with_header_detection (junk ++ h :: post) =
        read_csv_with_header_detection (h :: post))
  ∧ (∀ (h : String) (post : List String), isHeaderLine h = true →
      read_csv_with_header_detection (h :: post) =
        checkColumns ⟨splitComma h, post.map splitComma⟩) := by
  refine ⟨?_, ?_, fun h post hh => read_csv_header_first hh⟩
  · intro lines hl
    unfold read_csv_with_header_detection
    rw [findHeaderRow_eq_none hl]
  · intro junk h post hj hh
    rw [read_csv_header_first hh]
    unfold read_csv_with_header_detection
    rw [findHeaderRow_append hj hh]
    dsimp only
    rw [List.drop_left]
    rfl

/-- Witness for C1: a sourceless scan fails, two junk lines before the
header are ignored, and the header line's cells become the columns. -/
theorem c1_header_locator_witness :
    read_csv_with_header_detection ["junk", "noise"] = .error .HeaderNotFound ∧
    read_csv_with_header_detection
        ["junk", "Time,Metric,Value,Measurement,Percentage Loss", "1,m,1,X,5"] =
      read_csv_with_header_detection
        ["Time,Metric,Value,Measurement,Percentage Loss", "1,m,1,X,5"] ∧
    read_csv_with_header_detection
        ["Time,Metric,Value,Measurement,Percentage Loss", "1,m,1,X,5"] =
      checkColumns ⟨splitComma "Time,Metric,Value,Measurement,Percentage Loss",
        [splitComma "1,m,1,X,5"]⟩ :=
  ⟨c1_header_locator.1 _ (by decide),
   c1_header_locator.2.1 ["junk"] _ ["1,m,1,X,5"] (by decide) (by decide),
   c1_header_locator.2.2 _ ["1,m,1,X,5"] (by decide)⟩

/-- C5, counterexample to the claim as stated: a header that starts with
the signature yet lacks the "Measurement" column (its fourth cell is
"MeasurementX") produces MissingColumns with the FULL required list, not
MissingColumns(["Measurement"]). -/
theorem c5_counterexample :
    read_csv_with_header_detection
        ["Time,Metric,Value,MeasurementX,Percentage Loss"] =
      .error (.MissingColumns ["Measurement", "Percentage Loss"]) ∧
    Failure.MissingColumns ["Measurement", "Percentage Loss"] ≠
      Failure.MissingColumns ["Measurement"] :=
  ⟨by decide, by decide⟩

/-- C5 as amended: whenever the detected header lacks one or more required
columns, the result is the MissingColumns failure carrying the full
caller-supplied `required_columns` list (the dialog joins
`required_columns`, regardless of which columns are actually missing);
the same validation (`checkColumns`) is shared by the Excel reader. -/
theorem c5_missing_columns_full_list (lines : List String) (k : Nat)
    (h : String) (post : List String)
    (hk : findHeaderRow lines = some k) (hd : lines.drop k = h :: post)
    (hmiss : required_columns.all
      (fun c => (splitComma h).contains c) = false) :
    read_csv_with_header_detection lines =
      .error (.MissingColumns required_columns) := by
  unfold read_csv_with_header_detection
  rw [hk]
  dsimp only
  rw [hd]
  dsimp only
  rw [if_neg (by rw [hmiss]; exact Bool.false_ne_true)]

/-- Witness for C5's amended statement at the counterexample header. -/
theorem c5_missing_columns_full_list_witness :
    read_csv_with_header_detection
        ["Time,Metric,Value,MeasurementX,Percentage Loss"] =
      .error (.MissingColumns required_columns) :=
  c5_missing_columns_full_list _ 0
    "Time,Metric,Value,MeasurementX,Percentage Loss" []
    (by decide) (by decide) (by decide)

/-- C10: the header test strips leading and trailing whitespace before the
signature test, so a line starting with whitespace followed by the
signature is accepted as the header even though the raw line does not
start with the signature. -/
theorem c10_strip_before_signature_test :
    (∀ line : String,
      isHeaderLine line = pyStartsWith (pyStrip line) header_signature)
  ∧ isHeaderLine "   Time,Metric,Value,Measurement,Percentage Loss  " = true
  ∧ pyStartsWith "   Time,Metric,Value,Measurement,Percentage Loss  "
      header_signature = false
  ∧ findHeaderRow
      ["junk", "   Time,Metric,Value,Measurement,Percentage Loss"] = some 1 :=
  ⟨fun _ => rfl, by decide, by decide, by decide⟩

/-! ## Series min/max lemmas -/

theorem listMin_cons_cons (x y : ℚ) (t : List ℚ) :
    listMin (x :: y :: t) = min x (listMin (y :: t)) := rfl

theorem listMax_cons_cons (x y : ℚ) (t : List ℚ) :
    listMax (x :: y :: t) = max x (listMax (y :: t)) := rfl

theorem listMin_mem : ∀ (l : List ℚ), l ≠ [] → listMin l ∈ l
  | [], h => absurd rfl h
  | [x], _ => by simp [listMin]
  | x :: y :: t, _ => by
    rw [listMin_cons_cons]
    rcases min_choice x (listMin (y :: t)) with h1 | h1 <;> rw [h1]
    · exact List.mem_cons_self _ _
    · exact List.mem_cons_of_mem _ (listMin_mem (y :: t) (by simp))

theorem listMax_mem : ∀ (l : List ℚ), l ≠ [] → listMax l ∈ l
  | [], h => absurd rfl h
  | [x], _ => by simp [listMax]
  | x :: y :: t, _ => by
    rw [listMax_cons_cons]
    rcases max_choice x (listMax (y :: t)) with h1 | h1 <;> rw [h1]
    · exact List.mem_cons_self _ _
    · exact List.mem_cons_of_mem _ (listMax_mem (y :: t) (by simp))

theorem listMin_le : ∀ (l : List ℚ), ∀ y ∈ l, listMin l ≤ y
  | [], y, hy => absurd hy (List.not_mem_nil y)
  | [x], y, hy => by
    rw [List.mem_singleton] at hy
    simp [listMin, hy]
  | x :: z :: t, y, hy => by
    rw [listMin_cons_cons]
    rcases List.mem_cons.mp hy with rfl | hy2
    · exact min_le_left _ _
    · exact le_trans (min_le_right _ _) (listMin_le (z :: t) y hy2)

theorem le_listMax : ∀ (l : List ℚ), ∀ y ∈ l, y ≤ listMax l
  | [], y, hy => absurd hy (List.not_mem_nil y)
  | [x], y, hy => by
    rw [List.mem_singleton] at hy
    simp [listMax, hy]
  | x :: z :: t, y, hy => by
    rw [listMax_cons_cons]
    rcases List.mem_cons.mp hy with rfl | hy2
    · exact le_max_left _ _
    · exact le_trans (le_listMax (z :: t) y hy2) (le_max_right _ _)

theorem listMin_le_listMax (l : List ℚ) (h : l ≠ []) :
    listMin l ≤ listMax l :=
  listMin_le l _ (listMax_mem l h)

theorem listMin_perm {l l' : List ℚ} (h : l.Perm l') :
    listMin l = listMin l' := by
  rcases eq_or_ne l [] with rfl | hne
  · rw [h.nil_eq.symm]
  · have hne' : l' ≠ [] := fun he => hne (by rw [he] at h; exact h.eq_nil)
    exact le_antisymm
      (listMin_le l _ (h.mem_iff.mpr (listMin_mem l' hne')))
      (listMin_le l' _ (h.mem_iff.mp (listMin_mem l hne)))

theorem listMax_perm {l l' : List ℚ} (h : l.Perm l') :
    listMax l = listMax l' := by
  rcases eq_or_ne l [] with rfl | hne
  · rw [h.nil_eq.symm]
  · have hne' : l' ≠ [] := fun he => hne (by rw [he] at h; exact h.eq_nil)
    exact le_antisymm
      (le_listMax l' _ (h.mem_iff.mp (listMax_mem l hne)))
      (le_listMax l _ (h.mem_iff.mpr (listMax_mem l' hne')))

/-! ## Grouping lemmas -/

theorem groupKeys_sorted_le (rows : List (String × ℚ)) :
    (groupKeys rows).Sorted (fun a b : String => a ≤ b) :=
  @List.sorted_insertionSort String (fun a b : String => a ≤ b) strLeDec
    inferInstance inferInstance _

theorem groupKeys_nodup (rows : List (String × ℚ)) :
    (groupKeys rows).Nodup :=
  ((@List.perm_insertionSort String (fun a b : String => a ≤ b) strLeDec
      _).symm.nodup)
    (List.nodup_dedup (rows.map Prod.fst))

theorem groupKeys_sorted_lt (rows : List (String × ℚ)) :
    (groupKeys rows).Sorted (fun a b : String => a < b) :=
  (groupKeys_sorted_le rows).lt_of_le (groupKeys_nodup rows)

theorem groupKeys_perm {rows rows' : List (String × ℚ)}
    (h : rows.Perm rows') : groupKeys rows = groupKeys rows' :=
  List.eq_of_perm_of_sorted
    ((@List.perm_insertionSort String (fun a b : String => a ≤ b) strLeDec
        _).trans
      (((h.map Prod.fst).dedup).trans
        (@List.perm_insertionSort String (fun a b : String => a ≤ b)
          strLeDec _).symm))
    (groupKeys_sorted_le rows) (groupKeys_sorted_le rows')

theorem mem_groupKeys {k : String} {rows : List (String × ℚ)} :
    k ∈ groupKeys rows ↔ k ∈ rows.map Prod.fst := by
  unfold groupKeys
  rw [@List.mem_insertionSort String (fun a b : String => a ≤ b) strLeDec,
    List.mem_dedup]

theorem valuesFor_perm {rows rows' : List (String × ℚ)} (k : String)
    (h : rows.Perm rows') : (valuesFor rows k).Perm (valuesFor rows' k) :=
  (h.filter _).map _

theorem valuesFor_ne_nil {k : String} {rows : List (String × ℚ)}
    (h : k ∈ groupKeys rows) : valuesFor rows k ≠ [] := by
  rw [mem_groupKeys, List.mem_map] at h
  obtain ⟨p, hp, hpk⟩ := h
  have : p.2 ∈ valuesFor rows k := by
    unfold valuesFor
    exact List.mem_map_of_mem _
      (List.mem_filter.mpr ⟨hp, by simp [hpk]⟩)
  exact fun he => by rw [he] at this; exact List.not_mem_nil _ this

theorem mkGroup_perm {rows rows' : List (String × ℚ)} (opts : Options)
    (k : String) (h : rows.Perm rows') :
    mkGroup opts rows k = mkGroup opts rows' k := by
  simp only [mkGroup]
  rw [listMin_perm (valuesFor_perm k h), listMax_perm (valuesFor_perm k h)]

theorem groupTable_perm {rows rows' : List (String × ℚ)} (opts : Options)
    (h : rows.Perm rows') : groupTable opts rows = groupTable opts rows' := by
  unfold groupTable
  rw [groupKeys_perm h]
  exact List.map_congr_left (fun k _ => mkGroup_perm opts k h)

theorem groupTable_measurements (opts : Options)
    (rows : List (String × ℚ)) :
    (groupTable opts rows).map GroupRow.measurement = groupKeys rows := by
  unfold groupTable
  rw [List.map_map]
  have hid : (GroupRow.measurement ∘ mkGroup opts rows) = fun k => k := by
    funext k
    rfl
  rw [hid]
  exact List.map_id' _

/-- A small concrete table with one group of two rows, for witnesses. -/
def tblXY : Table :=
  ⟨["Time", "Metric", "Value", "Measurement", "Percentage Loss"],
   [["1", "m", "1", "X", "5"], ["2", "m", "1", "X", "3"]]⟩

theorem groupKeys_tblXY : groupKeys (cleanPairs tblXY) = ["X"] := by decide

theorem mem_groups_tblXY :
    mkGroup ⟨true, false⟩ (cleanPairs tblXY) "X" ∈
      (aggregate ⟨true, false⟩ tblXY).groups := by
  show _ ∈ groupTable ⟨true, false⟩ (cleanPairs tblXY)
  unfold groupTable
  rw [groupKeys_tblXY]
  exact List.mem_singleton_self _

/-- C8: the grouped output lists groups in strictly ascending order of the
group key (string comparison), and is invariant under any permutation of
the cleaned input rows. -/
theorem c8_deterministic_order (opts : Options)
    (rows rows' : List (String × ℚ)) (hperm : rows.Perm rows') :
    groupTable opts rows = groupTable opts rows' ∧
    ((groupTable opts rows).map GroupRow.measurement).Sorted
      (fun a b : String => a < b) :=
  ⟨groupTable_perm opts hperm, by
    rw [groupTable_measurements]
    exact groupKeys_sorted_lt rows⟩

/-- Witness for C8: swapping two rows leaves the grouped output unchanged
and sorted. -/
theorem c8_deterministic_order_witness :
    groupTable ⟨false, false⟩ [("B", 1), ("A", 2)] =
      groupTable ⟨false, false⟩ [("A", 2), ("B", 1)] ∧
    ((groupTable ⟨false, false⟩ [("B", 1), ("A", 2)]).map
      GroupRow.measurement).Sorted (fun a b : String => a < b) :=
  c8_deterministic_order ⟨false, false⟩ _ _
    (List.Perm.swap ("A", 2) ("B", 1) [])

/-- C9: every group of every aggregation output has min ≤ max, and when
the average column is attached it is the midpoint, lying between min and
max. -/
theorem c9_group_invariant (opts : Options) (t : Table) (g : GroupRow)
    (hg : g ∈ (aggregate opts t).groups) :
    g.minLoss ≤ g.maxLoss ∧
    (opts.include_average = true →
      g.average = some ((g.minLoss + g.maxLoss) / 2) ∧
      g.minLoss ≤ (g.minLoss + g.maxLoss) / 2 ∧
      (g.minLoss + g.maxLoss) / 2 ≤ g.maxLoss) := by
  have hg2 : g ∈ groupTable opts (cleanPairs t) := hg
  unfold groupTable at hg2
  rw [List.mem_map] at hg2
  obtain ⟨k, hk, rfl⟩ := hg2
  have hne := valuesFor_ne_nil hk
  have hmm := listMin_le_listMax _ hne
  simp only [mkGroup]
  refine ⟨hmm, fun ha => ?_⟩
  rw [ha]
  exact ⟨rfl, by linarith, by linarith⟩

/-- Witness for C9 on a two-row single-group table. -/
theorem c9_group_invariant_witness :
    (mkGroup ⟨true, false⟩ (cleanPairs tblXY) "X").minLoss ≤
      (mkGroup ⟨true, false⟩ (cleanPairs tblXY) "X").maxLoss ∧
    (mkGroup ⟨true, false⟩ (cleanPairs tblXY) "X").average =
      some (((mkGroup ⟨true, false⟩ (cleanPairs tblXY) "X").minLoss +
        (mkGroup ⟨true, false⟩ (cleanPairs tblXY) "X").maxLoss) / 2) :=
  let h := c9_group_invariant ⟨true, false⟩ tblXY
    (mkGroup ⟨true, false⟩ (cleanPairs tblXY) "X") mem_groups_tblXY
  ⟨h.1, (h.2 rfl).1⟩

/-- C6: with the average toggle on, every group's attached average equals
(min + max) / 2 exactly, and a single-row group has min = max = average. -/
theorem c6_average_midpoint (opts : Options) (rows : List (String × ℚ))
    (g : GroupRow) (havg : opts.include_average = true)
    (hg : g ∈ groupTable opts rows) :
    g.average = some ((g.minLoss + g.maxLoss) / 2) ∧
    ((valuesFor rows g.measurement).length = 1 →
      g.minLoss = g.maxLoss ∧ g.average = some g.minLoss) := by
  unfold groupTable at hg
  rw [List.mem_map] at hg
  obtain ⟨k, hk, rfl⟩ := hg
  have havg2 : (mkGroup opts rows k).average =
      some (((mkGroup opts rows k).minLoss +
        (mkGroup opts rows k).maxLoss) / 2) := by
    show (if opts.include_average then
        some ((listMin (valuesFor rows k) + listMax (valuesFor rows k)) / 2)
      else none) = _
    rw [havg]
    rfl
  refine ⟨havg2, fun hlen => ?_⟩
  obtain ⟨v, hv⟩ := List.length_eq_one.mp hlen
  have hv2 : valuesFor rows k = [v] := hv
  have hmin : (mkGroup opts rows k).minLoss = v := by
    show listMin (valuesFor rows k) = v
    rw [hv2]
    rfl
  have hmax : (mkGroup opts rows k).maxLoss = v := by
    show listMax (valuesFor rows k) = v
    rw [hv2]
    rfl
  refine ⟨by rw [hmin, hmax], ?_⟩
  rw [havg2, hmin, hmax]
  congr 1
  ring

/-- Witness for C6 at a one-row group. -/
theorem c6_average_midpoint_witness :
    (mkGroup ⟨true, false⟩ [("X", 5)] "X").average =
      some (((mkGroup ⟨true, false⟩ [("X", 5)] "X").minLoss +
        (mkGroup ⟨true, false⟩ [("X", 5)] "X").maxLoss) / 2) ∧
    (mkGroup ⟨true, false⟩ [("X", 5)] "X").minLoss =
      (mkGroup ⟨true, false⟩ [("X", 5)] "X").maxLoss ∧
    (mkGroup ⟨true, false⟩ [("X", 5)] "X").average =
      some (mkGroup ⟨true, false⟩ [("X", 5)] "X").minLoss :=
  let h := c6_average_midpoint ⟨true, false⟩ [("X", 5)]
    (mkGroup ⟨true, false⟩ [("X", 5)] "X") rfl
    (by rw [show groupTable ⟨true, false⟩ [("X", 5)] =
          [mkGroup ⟨true, false⟩ [("X", 5)] "X"] from rfl]
        exact List.mem_singleton_self _)
  ⟨h.1, h.2 rfl⟩

/-! ## Cleaning lemmas -/

theorem filterMap_pair_filter (cols : List String)
    (rows : List (List String)) :
    (rows.filter (fun r => (rowValue cols r).isSome)).filterMap
      (fun r => match rowKey cols r, rowValue cols r with
        | some k, some v => some (k, v)
        | _, _ => none) =
    rows.filterMap (fun r => match rowKey cols r, rowValue cols r with
        | some k, some v => some (k, v)
        | _, _ => none) := by
  induction rows with
  | nil => rfl
  | cons r rest ih =>
    rcases hv : rowValue cols r with _ | v <;>
      rcases hk : rowKey cols r with _ | k <;>
        simp [List.filter_cons, List.filterMap_cons, hv, hk, ih]

/-- C2: a row whose value column fails float coercion is excluded from all
further processing and counted exactly once in the drop count, which is
surfaced in the result as a non-fatal warning, not a failure: aggregation
continues on the remaining rows (restricting the table to the cleaned rows
leaves the grouped output unchanged). -/
theorem c2_invalid_rows_dropped (opts : Options) (t : Table) :
    dropCount t =
      t.rows.countP (fun r => (rowValue t.columns r).isNone) ∧
    cleanedRows t =
      t.rows.filter (fun r => (rowValue t.columns r).isSome) ∧
    (aggregate opts ⟨t.columns, cleanedRows t⟩).groups =
      (aggregate opts t).groups ∧
    (aggregate opts t).droppedRows = dropCount t := by
  refine ⟨?_, rfl, ?_, rfl⟩
  · unfold dropCount cleanedRows
    rw [← List.countP_eq_length_filter,
      List.length_eq_countP_add_countP
        (fun r => (rowValue t.columns r).isSome),
      Nat.add_sub_cancel_left]
    congr 1
    funext r
    cases rowValue t.columns r <;> rfl
  · show groupTable opts (cleanPairs ⟨t.columns, cleanedRows t⟩) =
      groupTable opts (cleanPairs t)
    unfold cleanPairs cleanedRows
    dsimp only
    rw [filterMap_pair_filter]

/-- C3, counterexample to the claim as stated: an input whose single data
row has an unparseable value yields an EMPTY cleaned table, and the
pipeline still returns success with an empty group summary (and drop count
1) — not any Failure value. -/
theorem c3_counterexample :
    process_data ⟨false, false⟩
      ["Time,Metric,Value,Measurement,Percentage Loss", "1,m,1,X,abc"] =
    .ok ⟨[], none, 1⟩ := by decide

/-- C3 as amended: when the cleaned table is empty (every row's value
failed coercion, or there were no data rows), aggregation succeeds with an
empty group summary — the drop count is still surfaced — and the pipeline
returns Ok, not a NoValidData failure (no such failure path exists). -/
theorem c3_empty_clean_is_ok (opts : Options) (t : Table)
    (h : cleanedRows t = []) :
    (aggregate opts t).groups = [] ∧
    ∀ lines, read_csv_with_header_detection lines = .ok t →
      process_data opts lines = .ok (aggregate opts t) := by
  constructor
  · show groupTable opts (cleanPairs t) = []
    have hp : cleanPairs t = [] := by
      unfold cleanPairs
      rw [List.filterMap_eq_nil_iff]
      intro r hr
      have hns : ¬((rowValue t.columns r).isSome = true) :=
        (List.filter_eq_nil_iff.mp h) r hr
      rcases hv : rowValue t.columns r with _ | v
      · rcases rowKey t.columns r with _ | k <;> rfl
      · exact absurd (by rw [hv]; rfl) hns
    rw [hp]
    rfl
  · intro lines hl
    unfold process_data
    rw [hl]
    rfl

/-- Witness for C3's amended statement at the counterexample's input. -/
theorem c3_empty_clean_is_ok_witness :
    (aggregate ⟨false, false⟩
      ⟨["Time", "Metric", "Value", "Measurement", "Percentage Loss"],
       [["1", "m", "1", "X", "abc"]]⟩).groups = [] ∧
    process_data ⟨false, false⟩
        ["Time,Metric,Value,Measurement,Percentage Loss", "1,m,1,X,abc"] =
      .ok (aggregate ⟨false, false⟩
        ⟨["Time", "Metric", "Value", "Measurement", "Percentage Loss"],
         [["1", "m", "1", "X", "abc"]]⟩) :=
  let h := c3_empty_clean_is_ok ⟨false, false⟩
    ⟨["Time", "Metric", "Value", "Measurement", "Percentage Loss"],
     [["1", "m", "1", "X", "abc"]]⟩ (by decide)
  ⟨h.1, h.2 _ (by decide)⟩

/-! ## Concrete cell-coercion lemmas used by witnesses -/

/-- The header of the witness tables. -/
def cols5 : List String :=
  ["Time", "Metric", "Value", "Measurement", "Percentage Loss"]

theorem parseFloat_zero : parseFloat? "0" = some 0 := by
  have h : pyStrip "0" = "0" := by decide
  simp +decide [parseFloat?, h, splitChar, natOfDigits]

theorem parseFloat_ten : parseFloat? "10" = some 10 := by
  have h : pyStrip "10" = "10" := by decide
  simp +decide [parseFloat?, h, splitChar, natOfDigits]

theorem parseFloat_four : parseFloat? "4" = some 4 := by
  have h : pyStrip "4" = "4" := by decide
  simp +decide [parseFloat?, h, splitChar, natOfDigits]

theorem parseFloat_six : parseFloat? "6" = some 6 := by
  have h : pyStrip "6" = "6" := by decide
  simp +decide [parseFloat?, h, splitChar, natOfDigits]

theorem rowValue_A0 : rowValue cols5 ["1", "m", "1", "A", "0"] = some 0 := by
  have hc : getCell cols5 ["1", "m", "1", "A", "0"] "Percentage Loss" =
      some "0" := by decide
  unfold rowValue
  rw [hc]
  exact parseFloat_zero

theorem rowValue_A10 :
    rowValue cols5 ["2", "m", "1", "A", "10"] = some 10 := by
  have hc : getCell cols5 ["2", "m", "1", "A", "10"] "Percentage Loss" =
      some "10" := by decide
  unfold rowValue
  rw [hc]
  exact parseFloat_ten

theorem rowValue_B4 : rowValue cols5 ["3", "m", "1", "B", "4"] = some 4 := by
  have hc : getCell cols5 ["3", "m", "1", "B", "4"] "Percentage Loss" =
      some "4" := by decide
  unfold rowValue
  rw [hc]
  exact parseFloat_four

theorem rowValue_B6 : rowValue cols5 ["4", "m", "1", "B", "6"] = some 6 := by
  have hc : getCell cols5 ["4", "m", "1", "B", "6"] "Percentage Loss" =
      some "6" := by decide
  unfold rowValue
  rw [hc]
  exact parseFloat_six

/-- The spec's two-group scenario: group A has rows 0 and 10, group B has
rows 4 and 6. -/
def tblAB : Table :=
  ⟨cols5,
   [["1", "m", "1", "A", "0"], ["2", "m", "1", "A", "10"],
    ["3", "m", "1", "B", "4"], ["4", "m", "1", "B", "6"]]⟩

theorem cleanPairs_tblAB :
    cleanPairs tblAB = [("A", 0), ("A", 10), ("B", 4), ("B", 6)] := by
  unfold cleanPairs rowKey
  simp +decide [tblAB, List.filterMap_cons, rowValue_A0, rowValue_A10,
    rowValue_B4, rowValue_B6]

/-- C7: with the overall-averages toggle on, the overall pair equals the
arithmetic mean of the GroupSummary min values and of the GroupSummary max
values, taken across groups (not across raw rows). -/
theorem c7_overall_mean_of_group_extremes (opts : Options) (t : Table)
    (hov : opts.include_overall_average = true) :
    (aggregate opts t).overall =
      some (mean ((aggregate opts t).groups.map GroupRow.minLoss),
            mean ((aggregate opts t).groups.map GroupRow.maxLoss)) := by
  show (if opts.include_overall_average then
      some (mean ((groupTable opts (cleanPairs t)).map GroupRow.minLoss),
            mean ((groupTable opts (cleanPairs t)).map GroupRow.maxLoss))
    else none) = _
  rw [hov]
  rfl

/-- Witness for C7 on the spec's scenario: groups {A: min 0, max 10} and
{B: min 4, max 6} produce overall averages (2, 8) — and not 5, the mean of
the raw rows. -/
theorem c7_overall_mean_witness :
    (aggregate ⟨false, true⟩ tblAB).overall = some (2, 8) := by
  rw [c7_overall_mean_of_group_extremes ⟨false, true⟩ tblAB rfl]
  have hg : (aggregate ⟨false, true⟩ tblAB).groups =
      groupTable ⟨false, true⟩ (cleanPairs tblAB) := rfl
  rw [hg, cleanPairs_tblAB]
  have hkeys : groupKeys [("A", (0 : ℚ)), ("A", 10), ("B", 4), ("B", 6)] =
      ["A", "B"] := by decide
  unfold groupTable
  rw [hkeys]
  have hvA : valuesFor [("A", (0 : ℚ)), ("A", 10), ("B", 4), ("B", 6)]
      "A" = [0, 10] := rfl
  have hvB : valuesFor [("A", (0 : ℚ)), ("A", 10), ("B", 4), ("B", 6)]
      "B" = [4, 6] := rfl
  simp only [List.map_cons, List.map_nil, mkGroup, hvA, hvB]
  norm_num [listMin, listMax, mean, min_def, max_def]

/-! ## C4: multi-sheet disambiguation -/

/-- First sheet of the C4 workbook: a metadata row, then a signature row,
then one data row. -/
def sheetS1 : Sheet :=
  ⟨"S1",
   [[.str "meta"],
    [.str "Time", .str "Metric", .str "Value", .str "Measurement",
     .str "Percentage Loss"],
    [.str "1", .str "m", .str "1", .str "X", .str "5"]]⟩

/-- Second sheet of the C4 workbook, also holding a signature row. -/
def sheetS2 : Sheet :=
  ⟨"S2",
   [[.str "Time", .str "Metric", .str "Value", .str "Measurement",
     .str "Percentage Loss"]]⟩

/-- C4: the guard `sheet_names.count(selected_sheet) > 1` counts the
selected sheet's NAME inside the workbook's name list, which is never
above one when sheet names are distinct (as they always are in a real
workbook) — so the disambiguation prompt is dead code: the result never
depends on the injected prompt answer, and a workbook whose two sheets
both contain the signature silently uses the first, even when the prompt
answer names the valid second sheet. -/
theorem c4_prompt_never_consulted :
    (∀ wb : List Sheet, (wb.map Sheet.name).Nodup →
      ∀ p q : Option String,
        read_excel_with_header_detection wb p =
          read_excel_with_header_detection wb q)
  ∧ (∀ p : Option String,
      read_excel_with_header_detection [sheetS1, sheetS2] p =
        .ok (parseSheet sheetS1 1)) := by
  constructor
  · intro wb hn p q
    unfold read_excel_with_header_detection
    rcases hf : findFirstSignatureSheet wb with _ | ⟨sh, idx⟩
    · rfl
    · dsimp only
      have hc : ¬ (wb.map Sheet.name).count sh.name > 1 := by
        have h1 := List.nodup_iff_count_le_one.mp hn sh.name
        omega
      rw [if_neg hc, if_neg hc]
  · intro p
    rfl

/-- Witness for C4: on the two-signature-sheet workbook, a cancelled
prompt and a prompt answering the (valid) second sheet name give the same
result — the parse of the FIRST sheet. -/
theorem c4_prompt_never_consulted_witness :
    read_excel_with_header_detection [sheetS1, sheetS2] none =
      read_excel_with_header_detection [sheetS1, sheetS2] (some "S2") ∧
    read_excel_with_header_detection [sheetS1, sheetS2] (some "S2") =
      .ok (parseSheet sheetS1 1) :=
  ⟨c4_prompt_never_consulted.1 [sheetS1, sheetS2] (by decide) none
      (some "S2"),
   c4_prompt_never_consulted.2 (some "S2")⟩

end Vtbox
